import Mathlib

/-
Verification of the orchestration core of `experiments/train_bnn.py`
(BNN training script): schedule calculation, checkpoint reconciliation,
scoped sinks, runner selection and the run orchestrator (`main`).

The Python code is shallowly embedded: Python ints are `Int`, the
temperature float (only ever compared with 0) is `Rat`, the parameter
stores (`state_dict` / `model.state_dict()`, insertion-ordered Python
dicts) are association lists `List (String × Tensor)`, and the
side-effecting orchestrator is a function producing a trace of
observable events together with an `Except` outcome.
-/

set_option autoImplicit false

namespace TrainBnn

/-- A tensor, abstracted to what the script inspects: its shape
(`.size()`) and its payload. -/
structure Tensor where
  shape : List Nat
  data : List Int
deriving DecidableEq, Repr

/-- A parameter store: a Python dict keyed by parameter name, in
insertion order (`model.state_dict()` or a loaded checkpoint). -/
abbrev Store := List (String × Tensor)

/-- The key list of a store, in insertion order (`d.keys()`). -/
def keys (m : Store) : List String := m.map Prod.fst

/-- Dictionary lookup (`d[k]` / `d.get(k)`): first entry with key `k`. -/
def lookup : Store → String → Option Tensor
  | [], _ => none
  | (k, v) :: rest, q => if k = q then some v else lookup rest q

/-- Python `k in d`. -/
def contains (m : Store) (k : String) : Bool := (lookup m k).isSome

/-- Python `d[k] = v`: replace the value at an existing key in place
(keys are unique, so at its sole entry), otherwise append at the end
(dicts keep insertion order). -/
def dictSet : Store → String → Tensor → Store
  | [], k, v => [(k, v)]
  | (k1, v1) :: rest, k, v =>
    if k1 = k then (k, v) :: rest else (k1, v1) :: dictSet rest k v

/-- Python `m.update(s)`: set every key of `s` in `m`, left to right. -/
def dictUpdate (m : Store) (s : Store) : Store :=
  s.foldl (fun acc kv => dictSet acc kv.1 kv.2) m

/-- The structured warnings logged by checkpoint reconciliation
(`_log.warning` calls in `main`). -/
inductive Warning where
  | keyNotInModel (k : String)
  | sizeMismatch (k : String) (modelShape loadedShape : List Nat)
  | missingKeys (ks : List String)
deriving DecidableEq, Repr

/-- The exceptions the embedded orchestrator can raise. -/
inductive PyError where
  /-- `AssertionError` from one of the configuration `assert`s
  (the spec's ConfigurationError). -/
  | configAssert
  /-- `ValueError` for an unknown `init_method`
  (also a ConfigurationError in the spec's taxonomy). -/
  | unknownInit
  /-- `RuntimeError`: dictionary changed size during iteration. -/
  | dictMutation
  /-- `TypeError`: `min` applied to `None` and an `int`. -/
  | noneCompare
  /-- Any error raised inside the runner's `run()`. -/
  | runnerFailure
deriving DecidableEq, Repr

/-- The `for k in state_dict.keys():` loop of `main`. The key list is
the dict view being iterated; `sd` is the live `state_dict`. Deleting
a key shrinks the dict, so the iterator's next step raises
`RuntimeError` (CPython checks the size before each step, including
the final one); the warning for the offending key is logged first.
Assigning to an existing key does not change the size and is safe. -/
def reconcileLoop (msd : Store) : List String → Store → List Warning →
    Except (List Warning × PyError) (Store × List Warning)
  | [], sd, ws => .ok (sd, ws)
  | k :: ks, sd, ws =>
    match lookup msd k with
    | none =>
      -- `del state_dict[k]`, then the iterator raises on its next step
      .error (ws ++ [Warning.keyNotInModel k], PyError.dictMutation)
    | some mv =>
      match lookup sd k with
      | none => reconcileLoop msd ks sd ws
      | some lv =>
        if mv.shape = lv.shape then reconcileLoop msd ks sd ws
        else reconcileLoop msd ks (dictSet sd k mv)
          (ws ++ [Warning.sizeMismatch k mv.shape lv.shape])

/-- Checkpoint reconciliation, lines 145–158 of `main`: the key loop,
then `missing_keys = set(model_sd.keys()) - set(state_dict.keys())`
with its warning, then `model_sd.update(state_dict)`. -/
def reconcile (msd sd : Store) :
    Except (List Warning × PyError) (Store × List Warning) :=
  match reconcileLoop msd (keys sd) sd [] with
  | .error e => .error e
  | .ok (sd2, ws) =>
    let missing := (keys msd).filter (fun k => !(contains sd2 k))
    .ok (dictUpdate msd sd2, ws ++ [Warning.missingKeys missing])

/-- The configuration options of `main` that matter to the claims
(captured named config values of the sacred experiment). -/
structure Config where
  inference : String
  width : Int
  n_samples : Int
  warmup : Int
  burnin : Int
  skip : Int
  metrics_skip : Int
  cycles : Int
  temperature : Rat
  init_method : String
  load_samples : Option Store
  batch_size : Option Nat
  save_samples : Bool

/-- What the external dataset provider exposes to `main`:
`len(data.norm.train)`, `len(data.norm.test)` and whether the train
split is an in-memory `TensorDataset`. -/
structure DataInfo where
  trainSize : Nat
  testSize : Nat
  isTensorDataset : Bool

/-- The two persistent sinks. -/
inductive Sink where
  | metrics
  | samples
deriving DecidableEq, Repr

/-- Observable events of one orchestrator run, in program order. -/
inductive Event where
  | dataLoaded
  | initApplied (method : String)
  | checkpointReconciled
  | sinkOpened (s : Sink)
  | kernelConstructed (step_size : Rat) (num_steps : Nat)
  | runnerConstructed (name : String) (epochsPerCycle warmupEpochs sampleEpochs : Int)
  | dataloaderCreated (train : Bool) (batchSize : Nat)
  | runStarted
  | write (s : Sink) (i : Nat)
  | sinkClosed (s : Sink)
  | evalLoaderCreated (batchSize : Nat)
  | evaluated
deriving DecidableEq, Repr

/-- Behaviour of the external sampling run `mcmc.run(...)`: the record
writes it performs through the sinks, and whether it then raises. -/
structure RunnerBehavior where
  writes : List (Sink × Nat)
  raises : Bool

/-- The six admissible inference modes (the `assert inference in [...]`
on line 117). -/
def validModes : List String :=
  ["SGLD", "HMC", "VerletSGLD", "OurHMC", "HMCReject", "VerletSGLDReject"]

/-- The five leading `assert`s of `main` (lines 117–121): inference
mode in the closed enumeration, `width > 0`, `n_samples > 0`,
`cycles > 0`, `temperature >= 0`. -/
def validateConfig (cfg : Config) : Bool :=
  validModes.contains cfg.inference && decide (0 < cfg.width)
    && decide (0 < cfg.n_samples) && decide (0 < cfg.cycles)
    && decide (0 ≤ cfg.temperature)

/-- The recognised initialization schemes of the `load_samples is None`
branch ("prior" is a no-op). -/
def knownInits : List String := ["he", "he_uniform", "he_zerobias", "prior"]

/-- The runner dispatch table (the `if/elif` chain selecting
`runner_class`). Only reached for valid non-HMC modes. -/
def runnerName (inference : String) : String :=
  if inference = "SGLD" then "SGLDRunner"
  else if inference = "VerletSGLD" then "VerletSGLDRunner"
  else if inference = "OurHMC" then "HMCRunner"
  else if inference = "VerletSGLDReject" then "VerletSGLDRunnerReject"
  else if inference = "HMCReject" then "HMCRunnerReject"
  else "unreachable"

/-- `sample_epochs = n_samples * skip // cycles` (Python floor
division, line 193). -/
def sample_epochs (n_samples skip cycles : Int) : Int :=
  (n_samples * skip).fdiv cycles

/-- `epochs_per_cycle = warmup + burnin + sample_epochs` (line 194). -/
def epochs_per_cycle (warmup burnin se : Int) : Int := warmup + burnin + se

/-- The model-initialization / checkpoint-loading phase of `main`
(lines 133–158): with no checkpoint, dispatch on `init_method`
(unknown schemes raise `ValueError`); with a checkpoint, reconcile it
into the model's store. -/
def initModel (cfg : Config) (msd : Store) :
    List Event × Except PyError Store :=
  match cfg.load_samples with
  | none =>
    if cfg.init_method = "he" then ([Event.initApplied "he"], .ok msd)
    else if cfg.init_method = "he_uniform" then
      ([Event.initApplied "he_uniform"], .ok msd)
    else if cfg.init_method = "he_zerobias" then
      ([Event.initApplied "he_zerobias"], .ok msd)
    else if cfg.init_method = "prior" then ([], .ok msd)
    else ([], .error PyError.unknownInit)
  | some sd =>
    match reconcile msd sd with
    | .error (_, e) => ([], .error e)
    | .ok (merged, _) => ([Event.checkpointReconciled], .ok merged)

/-- The events of `mcmc.run(progressbar=progressbar)`. -/
def writeEvents (rb : RunnerBehavior) : List Event :=
  rb.writes.map (fun w => Event.write w.1 w.2)

/-- The body of the `with` block (lines 173–206): either the library
HMC kernel with its fixed step size and step count, or the schedule
divisibility assert, schedule computation, data loaders and the
selected runner; then the run itself. Returns the value of the local
`batch_size` variable at the end of the block (the HMC branch never
rebinds it). -/
def samplingBody (cfg : Config) (d : DataInfo) (rb : RunnerBehavior) :
    List Event × Except PyError (Option Nat) :=
  if cfg.inference = "HMC" then
    (Event.kernelConstructed (1/1000) 32 :: Event.runStarted :: writeEvents rb,
     if rb.raises then .error PyError.runnerFailure else .ok cfg.batch_size)
  else
    if (cfg.n_samples * cfg.skip).fmod cfg.cycles = 0 then
      let se := sample_epochs cfg.n_samples cfg.skip cfg.cycles
      let bs := cfg.batch_size.getD d.trainSize
      (Event.dataloaderCreated true bs :: Event.dataloaderCreated false bs ::
        Event.runnerConstructed (runnerName cfg.inference)
          (epochs_per_cycle cfg.warmup cfg.burnin se) cfg.warmup se ::
        Event.runStarted :: writeEvents rb,
       if rb.raises then .error PyError.runnerFailure else .ok (some bs))
    else ([], .error PyError.configAssert)

/-- Sink-opening events on entry to the `with` block: the metrics sink
always, the sample sink only when `save_samples` (otherwise the no-op
context manager opens nothing). -/
def sinkOpens (cfg : Config) : List Event :=
  Event.sinkOpened Sink.metrics ::
    (if cfg.save_samples then [Event.sinkOpened Sink.samples] else [])

/-- Sink-closing events on any exit from the `with` block, in exit
order (the sample sink's context manager exits first). -/
def sinkCloses (cfg : Config) : List Event :=
  (if cfg.save_samples then [Event.sinkClosed Sink.samples] else [])
    ++ [Event.sinkClosed Sink.metrics]

/-- The whole of `main`: validation asserts, data and model
construction, initialization or checkpoint reconciliation, the scoped
sinks around the sampling run, and the final evaluation, where
`batch_size = min(batch_size, len(data.norm.test))` raises `TypeError`
if `batch_size` is still `None`. -/
def mainRun (cfg : Config) (d : DataInfo) (msd : Store)
    (rb : RunnerBehavior) : List Event × Except PyError Unit :=
  if validateConfig cfg then
    match initModel cfg msd with
    | (iev, .error e) => (Event.dataLoaded :: iev, .error e)
    | (iev, .ok _) =>
      match samplingBody cfg d rb with
      | (bev, .error e) =>
        (Event.dataLoaded :: iev ++ sinkOpens cfg ++ bev ++ sinkCloses cfg,
         .error e)
      | (bev, .ok none) =>
        (Event.dataLoaded :: iev ++ sinkOpens cfg ++ bev ++ sinkCloses cfg,
         .error PyError.noneCompare)
      | (bev, .ok (some bs)) =>
        (Event.dataLoaded :: iev ++ sinkOpens cfg ++ bev ++ sinkCloses cfg
          ++ [Event.evalLoaderCreated (min bs d.testSize), Event.evaluated],
         .ok ())
  else ([], .error PyError.configAssert)

/-! ### Concrete inputs used to instantiate the theorems -/

/-- A 1-d tensor of two zeros. -/
def tensorA : Tensor := { shape := [2], data := [0, 0] }

/-- A 1-d tensor of three zeros. -/
def tensorB : Tensor := { shape := [3], data := [0, 0, 0] }

/-- A small valid configuration (SGLD, fresh he-initialised model,
schedule 4 samples × skip 5 over 2 cycles). -/
def baseConfig : Config := {
  inference := "SGLD", width := 50, n_samples := 4, warmup := 2,
  burnin := 3, skip := 5, metrics_skip := 10, cycles := 2,
  temperature := 1, init_method := "he", load_samples := none,
  batch_size := none, save_samples := true }

/-- A small dataset: 10 training points, 4 test points. -/
def dataSmall : DataInfo :=
  { trainSize := 10, testSize := 4, isTensorDataset := true }

/-- A runner that writes one record to each sink and completes. -/
def runnerOk : RunnerBehavior :=
  { writes := [(Sink.metrics, 0), (Sink.samples, 1)], raises := false }

/-- A runner that writes one metrics record and then raises. -/
def runnerRaises : RunnerBehavior :=
  { writes := [(Sink.metrics, 0)], raises := true }

/-- The base configuration with a broken schedule: 4 samples × skip 5
is not divisible by 3 cycles. -/
def cfgDivBad : Config := { baseConfig with cycles := 3 }

/-- A configuration that fails validation (`width = 0`). -/
def cfgInvalid : Config := { baseConfig with width := 0 }

/-- The base configuration in library-HMC mode with a set batch size. -/
def cfgHmc : Config :=
  { baseConfig with inference := "HMC", batch_size := some 7 }

/-- The base configuration in library-HMC mode with `batch_size`
unset. -/
def cfgHmcNoBatch : Config := { baseConfig with inference := "HMC" }

/-- A configuration with a checkpoint to load and a nonsense
`init_method`. -/
def cfgLoad : Config :=
  { baseConfig with
    init_method := "nonsense"
    load_samples := some [("a", tensorA)] }

/-! ### Event classifiers -/

/-- Is this a library-HMC-kernel construction event? -/
def isKernel : Event → Bool
  | .kernelConstructed _ _ => true
  | _ => false

/-- Is this a sampling-runner construction event? -/
def isRunner : Event → Bool
  | .runnerConstructed _ _ _ _ => true
  | _ => false

/-- Is this a record write to a sink? -/
def isWrite : Event → Bool
  | .write _ _ => true
  | _ => false

/-- Is this a sink-close event? -/
def isClose : Event → Bool
  | .sinkClosed _ => true
  | _ => false

/-- Is this a sink-open event? -/
def isSinkOpen : Event → Bool
  | .sinkOpened _ => true
  | _ => false

/-- Is this an initialization-scheme application event? -/
def isInit : Event → Bool
  | .initApplied _ => true
  | _ => false

/-- Is this the creation of the final evaluation data loader? -/
def isEvalLoader : Event → Bool
  | .evalLoaderCreated _ => true
  | _ => false

/-- Is this the creation of the training data loader? -/
def isTrainLoader : Event → Bool
  | .dataloaderCreated true _ => true
  | _ => false

/-- Does a record write occur anywhere after a sink-close event? -/
def writeAfterClose : List Event → Bool
  | [] => false
  | e :: rest => (isClose e && rest.any isWrite) || writeAfterClose rest

/-! ### Lemmas about the store operations -/

theorem lookup_append (m l : Store) (q : String) :
    lookup (m ++ l) q =
      match lookup m q with
      | some v => some v
      | none => lookup l q := by
  induction m with
  | nil => simp [lookup]
  | cons kv rest ih =>
    obtain ⟨k, v⟩ := kv
    by_cases h : k = q <;> simp [lookup, h, ih]

theorem mem_keys_of_lookup {m : Store} {k : String} {v : Tensor}
    (h : lookup m k = some v) : k ∈ keys m := by
  induction m with
  | nil => simp [lookup] at h
  | cons kv rest ih =>
    obtain ⟨k1, v1⟩ := kv
    by_cases hk : k1 = k
    · simp [keys, hk]
    · simp only [lookup, if_neg hk] at h
      simp [keys, ih h, keys] at *
      right
      exact ih h

theorem lookup_isSome_of_mem_keys {m : Store} {k : String}
    (h : k ∈ keys m) : ∃ v, lookup m k = some v := by
  induction m with
  | nil => simp [keys] at h
  | cons kv rest ih =>
    obtain ⟨k1, v1⟩ := kv
    by_cases hk : k1 = k
    · exact ⟨v1, by simp [lookup, hk]⟩
    · simp only [keys, List.map_cons, List.mem_cons] at h
      rcases h with h | h
      · exact absurd h.symm hk
      · obtain ⟨v, hv⟩ := ih h
        exact ⟨v, by simp [lookup, hk, hv]⟩

theorem keys_cons (k : String) (v : Tensor) (rest : Store) :
    keys ((k, v) :: rest) = k :: keys rest := rfl

theorem mem_keys_of_mem {m : Store} {kv : String × Tensor} (h : kv ∈ m) :
    kv.1 ∈ keys m := List.mem_map_of_mem Prod.fst h

theorem lookup_dictSet_self (m : Store) (k : String) (v : Tensor) :
    lookup (dictSet m k v) k = some v := by
  induction m with
  | nil => simp [dictSet, lookup]
  | cons kv rest ih =>
    obtain ⟨k1, v1⟩ := kv
    by_cases hk : k1 = k
    · simp [dictSet, hk, lookup]
    · simp [dictSet, hk, lookup, ih]

theorem lookup_dictSet_ne (m : Store) (k q : String) (v : Tensor)
    (hne : q ≠ k) : lookup (dictSet m k v) q = lookup m q := by
  have hkq : ¬ (k = q) := fun h => hne h.symm
  induction m with
  | nil => simp [dictSet, lookup, hkq]
  | cons kv rest ih =>
    obtain ⟨k1, v1⟩ := kv
    by_cases hk : k1 = k
    · subst hk
      simp [dictSet, lookup, hkq]
    · by_cases hq : k1 = q
      · subst hq
        simp [dictSet, hk, lookup]
      · simp [dictSet, hk, lookup, hq, ih]

theorem keys_dictSet (m : Store) (k : String) (v : Tensor)
    (hc : contains m k = true) : keys (dictSet m k v) = keys m := by
  induction m with
  | nil => simp [contains, lookup] at hc
  | cons kv rest ih =>
    obtain ⟨k1, v1⟩ := kv
    by_cases hk : k1 = k
    · simp [dictSet, hk, keys]
    · simp only [contains, lookup, if_neg hk] at hc
      simp [dictSet, hk, keys, keys_cons]
      exact ih hc

theorem lookup_self_of_nodup {m : Store} {k : String} {v : Tensor}
    (hnd : (keys m).Nodup) (h : (k, v) ∈ m) : lookup m k = some v := by
  induction m with
  | nil => simp at h
  | cons kv rest ih =>
    obtain ⟨k1, v1⟩ := kv
    rw [keys_cons, List.nodup_cons] at hnd
    rw [List.mem_cons] at h
    rcases h with h | h
    · cases h
      simp [lookup]
    · have hk : k1 ≠ k := by
        intro hk
        exact hnd.1 (hk ▸ mem_keys_of_mem h)
      simp [lookup, hk, ih hnd.2 h]

theorem dictSet_self {m : Store} {k : String} {v : Tensor}
    (h : lookup m k = some v) : dictSet m k v = m := by
  induction m with
  | nil => simp [lookup] at h
  | cons kv rest ih =>
    obtain ⟨k1, v1⟩ := kv
    by_cases hk : k1 = k
    · subst hk
      have h2 : v1 = v := by simpa [lookup] using h
      subst h2
      simp [dictSet]
    · simp only [lookup, if_neg hk] at h
      simp [dictSet, hk, ih h]

theorem dictUpdate_lookup_not_mem {s : Store} {k : String} (m : Store)
    (h : k ∉ keys s) : lookup (dictUpdate m s) k = lookup m k := by
  induction s generalizing m with
  | nil => simp [dictUpdate]
  | cons kv rest ih =>
    obtain ⟨k1, v1⟩ := kv
    rw [keys_cons, List.mem_cons, not_or] at h
    show lookup (dictUpdate (dictSet m k1 v1) rest) k = lookup m k
    rw [ih _ h.2, lookup_dictSet_ne _ _ _ _ h.1]

theorem dictUpdate_lookup {s : Store} {k : String} {v : Tensor} (m : Store)
    (hnd : (keys s).Nodup) (h : lookup s k = some v) :
    lookup (dictUpdate m s) k = some v := by
  induction s generalizing m with
  | nil => simp [lookup] at h
  | cons kv rest ih =>
    obtain ⟨k1, v1⟩ := kv
    rw [keys_cons, List.nodup_cons] at hnd
    show lookup (dictUpdate (dictSet m k1 v1) rest) k = some v
    by_cases hk : k1 = k
    · subst hk
      have h2 : v1 = v := by simpa [lookup] using h
      subst h2
      rw [dictUpdate_lookup_not_mem _ hnd.1, lookup_dictSet_self]
    · simp only [lookup, if_neg hk] at h
      exact ih _ hnd.2 h

theorem dictUpdate_self_of_sub {s : Store} {m : Store}
    (hsub : ∀ kv ∈ s, lookup m kv.1 = some kv.2) :
    dictUpdate m s = m := by
  induction s with
  | nil => simp [dictUpdate]
  | cons kv rest ih =>
    show dictUpdate (dictSet m kv.1 kv.2) rest = m
    rw [dictSet_self (hsub kv (by simp))]
    exact ih (fun kv2 h2 => hsub kv2 (by simp [h2]))

/-! ### Lemmas about the reconciliation loop -/

theorem reconcileLoop_warnings_mono {msd : Store} {ks : List String}
    {sd : Store} {ws : List Warning} {sd2 : Store} {ws2 : List Warning}
    (h : reconcileLoop msd ks sd ws = .ok (sd2, ws2)) :
    ∃ t, ws2 = ws ++ t := by
  induction ks generalizing sd ws with
  | nil =>
    simp [reconcileLoop] at h
    exact ⟨[], by simp [h.2]⟩
  | cons k rest ih =>
    simp only [reconcileLoop] at h
    cases hm : lookup msd k <;> simp only [hm] at h
    · simp at h
    case some mv =>
      cases hl : lookup sd k <;> simp only [hl] at h
      · exact ih h
      case some lv =>
        by_cases hsh : mv.shape = lv.shape
        · rw [if_pos hsh] at h
          exact ih h
        · rw [if_neg hsh] at h
          obtain ⟨t, ht⟩ := ih h
          exact ⟨_, by rw [ht, List.append_assoc]⟩

theorem reconcileLoop_lookup_not_mem {msd : Store} {ks : List String}
    {sd : Store} {ws : List Warning} {sd2 : Store} {ws2 : List Warning}
    {k : String} (hk : k ∉ ks)
    (h : reconcileLoop msd ks sd ws = .ok (sd2, ws2)) :
    lookup sd2 k = lookup sd k := by
  induction ks generalizing sd ws with
  | nil =>
    simp [reconcileLoop] at h
    rw [h.1]
  | cons k1 rest ih =>
    rw [List.mem_cons, not_or] at hk
    simp only [reconcileLoop] at h
    cases hm : lookup msd k1 <;> simp only [hm] at h
    · simp at h
    case some mv =>
      cases hl : lookup sd k1 <;> simp only [hl] at h
      · exact ih hk.2 h
      case some lv =>
        by_cases hsh : mv.shape = lv.shape
        · rw [if_pos hsh] at h
          exact ih hk.2 h
        · rw [if_neg hsh] at h
          rw [ih hk.2 h, lookup_dictSet_ne _ _ _ _ hk.1]

theorem reconcileLoop_keys {msd : Store} {ks : List String}
    {sd : Store} {ws : List Warning} {sd2 : Store} {ws2 : List Warning}
    (h : reconcileLoop msd ks sd ws = .ok (sd2, ws2)) :
    keys sd2 = keys sd := by
  induction ks generalizing sd ws with
  | nil =>
    simp [reconcileLoop] at h
    rw [h.1]
  | cons k1 rest ih =>
    simp only [reconcileLoop] at h
    cases hm : lookup msd k1 <;> simp only [hm] at h
    · simp at h
    case some mv =>
      cases hl : lookup sd k1 <;> simp only [hl] at h
      · exact ih h
      case some lv =>
        by_cases hsh : mv.shape = lv.shape
        · rw [if_pos hsh] at h
          exact ih h
        · rw [if_neg hsh] at h
          rw [ih h, keys_dictSet _ _ _ (by simp [contains, hl])]

theorem reconcileLoop_mismatch {msd : Store} {ks : List String}
    {sd : Store} {ws : List Warning} {sd2 : Store} {ws2 : List Warning}
    {k : String} {mv lv : Tensor}
    (hnd : ks.Nodup) (hk : k ∈ ks) (hm : lookup msd k = some mv)
    (hl : lookup sd k = some lv) (hsh : mv.shape ≠ lv.shape)
    (h : reconcileLoop msd ks sd ws = .ok (sd2, ws2)) :
    lookup sd2 k = some mv ∧
      Warning.sizeMismatch k mv.shape lv.shape ∈ ws2 := by
  induction ks generalizing sd ws with
  | nil => simp at hk
  | cons k1 rest ih =>
    rw [List.nodup_cons] at hnd
    rcases List.mem_cons.mp hk with hkk | hkrest
    · subst hkk
      simp only [reconcileLoop, hm, hl, if_neg hsh] at h
      have hlk : lookup sd2 k = lookup (dictSet sd k mv) k :=
        reconcileLoop_lookup_not_mem hnd.1 h
      refine ⟨by rw [hlk, lookup_dictSet_self], ?_⟩
      obtain ⟨t, ht⟩ := reconcileLoop_warnings_mono h
      rw [ht]
      simp
    · have hne : k ≠ k1 := fun hh => hnd.1 (hh ▸ hkrest)
      simp only [reconcileLoop] at h
      cases hm1 : lookup msd k1 <;> simp only [hm1] at h
      · simp at h
      case some mv1 =>
        cases hl1 : lookup sd k1 <;> simp only [hl1] at h
        · exact ih hnd.2 hkrest hl h
        case some lv1 =>
          by_cases hsh1 : mv1.shape = lv1.shape
          · rw [if_pos hsh1] at h
            exact ih hnd.2 hkrest hl h
          · rw [if_neg hsh1] at h
            have hl2 : lookup (dictSet sd k1 mv1) k = some lv := by
              rw [lookup_dictSet_ne _ _ _ _ hne, hl]
            exact ih hnd.2 hkrest hl2 h

theorem reconcileLoop_id {S : Store} {ws : List Warning} {ks : List String}
    (hks : ∀ k ∈ ks, k ∈ keys S) :
    reconcileLoop S ks S ws = .ok (S, ws) := by
  induction ks with
  | nil => rfl
  | cons k rest ih =>
    obtain ⟨v, hv⟩ := lookup_isSome_of_mem_keys (hks k (by simp))
    simp only [reconcileLoop, hv, if_pos rfl]
    exact ih (fun k2 h2 => hks k2 (by simp [h2]))

/-! ### Lemmas about the orchestrator -/

theorem writeEvents_shape {rb : RunnerBehavior} {e : Event}
    (h : e ∈ writeEvents rb) : ∃ s i, e = Event.write s i := by
  simp only [writeEvents, List.mem_map] at h
  obtain ⟨w, _, rfl⟩ := h
  exact ⟨w.1, w.2, rfl⟩

theorem writeAfterClose_of_no_writes {l : List Event}
    (h : ∀ e ∈ l, isWrite e = false) : writeAfterClose l = false := by
  induction l with
  | nil => rfl
  | cons e rest ih =>
    have hany : rest.any isWrite = false := by
      simp only [List.any_eq_false]
      intro a ha
      simp [h a (by simp [ha])]
    simp only [writeAfterClose, hany, Bool.and_false, Bool.false_or]
    exact ih (fun a ha => h a (by simp [ha]))

theorem writeAfterClose_append_false {l1 l2 : List Event}
    (h1 : ∀ e ∈ l1, isClose e = false)
    (hw : writeAfterClose l2 = false) :
    writeAfterClose (l1 ++ l2) = false := by
  induction l1 with
  | nil => simpa
  | cons e rest ih =>
    simp only [List.cons_append, writeAfterClose]
    rw [h1 e (by simp)]
    simp [ih (fun a ha => h1 a (by simp [ha]))]

theorem initModel_events_cases (cfg : Config) (msd : Store) :
    (initModel cfg msd).1 = [] ∨
      (∃ m, (initModel cfg msd).1 = [Event.initApplied m]) ∨
      (initModel cfg msd).1 = [Event.checkpointReconciled] := by
  unfold initModel
  split
  · split
    · exact Or.inr (Or.inl ⟨_, rfl⟩)
    · split
      · exact Or.inr (Or.inl ⟨_, rfl⟩)
      · split
        · exact Or.inr (Or.inl ⟨_, rfl⟩)
        · split
          · exact Or.inl rfl
          · exact Or.inl rfl
  · split
    · exact Or.inl rfl
    · exact Or.inr (Or.inr rfl)

theorem initModel_unknown {cfg : Config} (msd : Store)
    (hls : cfg.load_samples = none) (hmem : cfg.init_method ∉ knownInits) :
    initModel cfg msd = ([], Except.error PyError.unknownInit) := by
  simp only [knownInits, List.mem_cons, List.mem_singleton, not_or] at hmem
  obtain ⟨h1, h2, h3, h4, _⟩ := hmem
  simp [initModel, hls, h1, h2, h3, h4]

theorem reconcileLoop_error_kind {msd : Store} {ks : List String}
    {sd : Store} {ws ws2 : List Warning} {e : PyError}
    (h : reconcileLoop msd ks sd ws = .error (ws2, e)) :
    e = PyError.dictMutation := by
  induction ks generalizing sd ws with
  | nil => simp [reconcileLoop] at h
  | cons k1 rest ih =>
    simp only [reconcileLoop] at h
    cases hm : lookup msd k1 <;> simp only [hm] at h
    · simp only [Except.error.injEq, Prod.mk.injEq] at h
      exact h.2.symm
    case some mv =>
      cases hl : lookup sd k1 <;> simp only [hl] at h
      · exact ih h
      case some lv =>
        by_cases hsh : mv.shape = lv.shape
        · rw [if_pos hsh] at h
          exact ih h
        · rw [if_neg hsh] at h
          exact ih h

theorem reconcile_error_kind {msd sd : Store} {ws : List Warning}
    {e : PyError} (h : reconcile msd sd = .error (ws, e)) :
    e = PyError.dictMutation := by
  rw [reconcile] at h
  cases hloop : reconcileLoop msd (keys sd) sd [] with
  | error p =>
    rw [hloop] at h
    simp only [Except.error.injEq] at h
    obtain ⟨ws0, e0⟩ := p
    cases h
    exact reconcileLoop_error_kind hloop
  | ok p =>
    obtain ⟨sd2, ws0⟩ := p
    rw [hloop] at h
    simp at h

theorem initModel_some_cases (cfg : Config) (msd : Store) (sd : Store)
    (hls : cfg.load_samples = some sd) :
    initModel cfg msd = ([], Except.error PyError.dictMutation) ∨
      ∃ merged, initModel cfg msd =
        ([Event.checkpointReconciled], Except.ok merged) := by
  simp only [initModel, hls]
  cases hr : reconcile msd sd with
  | error p =>
    obtain ⟨ws0, e0⟩ := p
    left
    have he : e0 = PyError.dictMutation := reconcile_error_kind hr
    subst he
    simp [hr]
  | ok p =>
    obtain ⟨merged, ws0⟩ := p
    exact Or.inr ⟨merged, by simp [hr]⟩

theorem samplingBody_hmc (cfg : Config) (d : DataInfo)
    (rb : RunnerBehavior) (hH : cfg.inference = "HMC") :
    samplingBody cfg d rb =
      (Event.kernelConstructed (1/1000) 32 :: Event.runStarted ::
          writeEvents rb,
       if rb.raises then Except.error PyError.runnerFailure
       else Except.ok cfg.batch_size) := by
  simp [samplingBody, hH]

theorem samplingBody_sched (cfg : Config) (d : DataInfo)
    (rb : RunnerBehavior) (hH : cfg.inference ≠ "HMC")
    (hdiv : (cfg.n_samples * cfg.skip).fmod cfg.cycles = 0) :
    samplingBody cfg d rb =
      (Event.dataloaderCreated true (cfg.batch_size.getD d.trainSize) ::
        Event.dataloaderCreated false (cfg.batch_size.getD d.trainSize) ::
        Event.runnerConstructed (runnerName cfg.inference)
          (epochs_per_cycle cfg.warmup cfg.burnin
            (sample_epochs cfg.n_samples cfg.skip cfg.cycles))
          cfg.warmup (sample_epochs cfg.n_samples cfg.skip cfg.cycles) ::
        Event.runStarted :: writeEvents rb,
       if rb.raises then Except.error PyError.runnerFailure
       else Except.ok (some (cfg.batch_size.getD d.trainSize))) := by
  simp [samplingBody, hH, hdiv]

theorem samplingBody_div_fail (cfg : Config) (d : DataInfo)
    (rb : RunnerBehavior) (hH : cfg.inference ≠ "HMC")
    (hdiv : (cfg.n_samples * cfg.skip).fmod cfg.cycles ≠ 0) :
    samplingBody cfg d rb = ([], Except.error PyError.configAssert) := by
  simp [samplingBody, hH, hdiv]

theorem mainRun_invalid (cfg : Config) (d : DataInfo) (msd : Store)
    (rb : RunnerBehavior) (hv : validateConfig cfg = false) :
    mainRun cfg d msd rb = ([], Except.error PyError.configAssert) := by
  simp [mainRun, hv]

theorem mainRun_init_error {cfg : Config} (d : DataInfo) {msd : Store}
    (rb : RunnerBehavior) {iev : List Event} {e : PyError}
    (hv : validateConfig cfg = true)
    (hi : initModel cfg msd = (iev, Except.error e)) :
    mainRun cfg d msd rb = (Event.dataLoaded :: iev, Except.error e) := by
  simp [mainRun, hv, hi]

theorem mainRun_body_error {cfg : Config} {d : DataInfo} {msd : Store}
    {rb : RunnerBehavior} {iev : List Event} {st : Store}
    {bev : List Event} {e : PyError}
    (hv : validateConfig cfg = true)
    (hi : initModel cfg msd = (iev, Except.ok st))
    (hb : samplingBody cfg d rb = (bev, Except.error e)) :
    mainRun cfg d msd rb =
      (Event.dataLoaded :: iev ++ sinkOpens cfg ++ bev ++ sinkCloses cfg,
       Except.error e) := by
  simp [mainRun, hv, hi, hb]

theorem mainRun_body_none {cfg : Config} {d : DataInfo} {msd : Store}
    {rb : RunnerBehavior} {iev : List Event} {st : Store}
    {bev : List Event}
    (hv : validateConfig cfg = true)
    (hi : initModel cfg msd = (iev, Except.ok st))
    (hb : samplingBody cfg d rb = (bev, Except.ok none)) :
    mainRun cfg d msd rb =
      (Event.dataLoaded :: iev ++ sinkOpens cfg ++ bev ++ sinkCloses cfg,
       Except.error PyError.noneCompare) := by
  simp [mainRun, hv, hi, hb]

theorem mainRun_body_some {cfg : Config} {d : DataInfo} {msd : Store}
    {rb : RunnerBehavior} {iev : List Event} {st : Store}
    {bev : List Event} {bs : Nat}
    (hv : validateConfig cfg = true)
    (hi : initModel cfg msd = (iev, Except.ok st))
    (hb : samplingBody cfg d rb = (bev, Except.ok (some bs))) :
    mainRun cfg d msd rb =
      (Event.dataLoaded :: iev ++ sinkOpens cfg ++ bev ++ sinkCloses cfg
        ++ [Event.evalLoaderCreated (min bs d.testSize), Event.evaluated],
       Except.ok ()) := by
  simp [mainRun, hv, hi, hb]

theorem count_eq_zero_of_class {l : List Event} {e : Event}
    {p : Event → Bool} (h : ∀ x ∈ l, p x = false) (hp : p e = true) :
    l.count e = 0 :=
  List.count_eq_zero.mpr (fun hm => by simp [h e hm] at hp)

theorem countP_eq_zero_of_class {l : List Event} {p : Event → Bool}
    (h : ∀ x ∈ l, p x = false) : l.countP p = 0 :=
  List.countP_eq_zero.mpr (by intro a ha; simp [h a ha])

theorem initModel_events_class (cfg : Config) (msd : Store) :
    ∀ e ∈ (initModel cfg msd).1,
      isClose e = false ∧ isWrite e = false ∧ isKernel e = false ∧
        isRunner e = false ∧ isSinkOpen e = false ∧
        e ≠ Event.runStarted ∧ isEvalLoader e = false ∧
        isTrainLoader e = false := by
  intro e he
  rcases initModel_events_cases cfg msd with hiev | ⟨m2, hiev⟩ | hiev <;>
    rw [hiev] at he <;> simp at he
  · subst he
    exact ⟨rfl, rfl, rfl, rfl, rfl, by simp, rfl, rfl⟩
  · subst he
    exact ⟨rfl, rfl, rfl, rfl, rfl, by simp, rfl, rfl⟩

theorem writeEvents_class (rb : RunnerBehavior) :
    ∀ e ∈ writeEvents rb,
      isClose e = false ∧ isKernel e = false ∧ isRunner e = false ∧
        isSinkOpen e = false ∧ e ≠ Event.runStarted ∧ isInit e = false ∧
        isEvalLoader e = false ∧ isTrainLoader e = false := by
  intro e he
  obtain ⟨s, i, rfl⟩ := writeEvents_shape he
  exact ⟨rfl, rfl, rfl, rfl, by simp, rfl, rfl, rfl⟩

theorem sinkOpens_class (cfg : Config) :
    ∀ e ∈ sinkOpens cfg,
      isClose e = false ∧ isWrite e = false ∧ isKernel e = false ∧
        isRunner e = false ∧ e ≠ Event.runStarted ∧ isInit e = false ∧
        isEvalLoader e = false ∧ isTrainLoader e = false := by
  intro e he
  unfold sinkOpens at he
  rcases List.mem_cons.mp he with rfl | he
  · exact ⟨rfl, rfl, rfl, rfl, by simp, rfl, rfl, rfl⟩
  · split at he <;> simp at he
    subst he
    exact ⟨rfl, rfl, rfl, rfl, by simp, rfl, rfl, rfl⟩

theorem sinkCloses_class (cfg : Config) :
    ∀ e ∈ sinkCloses cfg,
      isWrite e = false ∧ isKernel e = false ∧ isRunner e = false ∧
        e ≠ Event.runStarted ∧ isInit e = false ∧ isSinkOpen e = false ∧
        isEvalLoader e = false ∧ isTrainLoader e = false := by
  intro e he
  unfold sinkCloses at he
  rcases List.mem_append.mp he with he | he
  · split at he <;> simp at he
    subst he
    exact ⟨rfl, rfl, rfl, by simp, rfl, rfl, rfl, rfl⟩
  · simp at he
    subst he
    exact ⟨rfl, rfl, rfl, by simp, rfl, rfl, rfl, rfl⟩

theorem samplingBody_class (cfg : Config) (d : DataInfo)
    (rb : RunnerBehavior) :
    ∀ e ∈ (samplingBody cfg d rb).1,
      isClose e = false ∧ isSinkOpen e = false ∧ isInit e = false ∧
        isEvalLoader e = false := by
  intro e he
  unfold samplingBody at he
  split at he
  · simp only [List.mem_cons] at he
    rcases he with rfl | rfl | he
    · exact ⟨rfl, rfl, rfl, rfl⟩
    · exact ⟨rfl, rfl, rfl, rfl⟩
    · obtain ⟨s, i, rfl⟩ := writeEvents_shape he
      exact ⟨rfl, rfl, rfl, rfl⟩
  · split at he
    · simp only [List.mem_cons] at he
      rcases he with rfl | rfl | rfl | rfl | he
      · exact ⟨rfl, rfl, rfl, rfl⟩
      · exact ⟨rfl, rfl, rfl, rfl⟩
      · exact ⟨rfl, rfl, rfl, rfl⟩
      · exact ⟨rfl, rfl, rfl, rfl⟩
      · obtain ⟨s, i, rfl⟩ := writeEvents_shape he
        exact ⟨rfl, rfl, rfl, rfl⟩
    · simp at he

/-! ### Claim theorems -/

/-- C1: for every configuration with `requested_samples > 0`,
`skip >= 1`, `cycles > 0` where `requested_samples * skip` is evenly
divisible by `cycles`, the computed `sample_epochs` satisfies
`sample_epochs * cycles == requested_samples * skip` exactly, and
`epochs_per_cycle == warmup + burnin + sample_epochs`. -/
theorem schedule_exact (n s c w b : Int) (_hn : 0 < n) (_hs : 1 ≤ s)
    (hc : 0 < c) (hdvd : (n * s).fmod c = 0) :
    sample_epochs n s c * c = n * s ∧
      epochs_per_cycle w b (sample_epochs n s c) =
        w + b + sample_epochs n s c := by
  refine ⟨?_, rfl⟩
  have hd : c ∣ n * s := by
    have hee := Int.fmod_eq_emod (n * s) hc.le
    exact Int.dvd_of_emod_eq_zero (by omega)
  rw [sample_epochs, Int.fdiv_eq_ediv _ hc.le, Int.ediv_mul_cancel hd]

/-- Witness for C1, at the spec's end-to-end scenario A:
`requested_samples = 100`, `skip = 5`, `cycles = 5`,
`warmup = burnin = 2000`. -/
theorem schedule_exact_witness :
    sample_epochs 100 5 5 * 5 = 100 * 5 ∧
      epochs_per_cycle 2000 2000 (sample_epochs 100 5 5) =
        2000 + 2000 + sample_epochs 100 5 5 :=
  schedule_exact 100 5 5 2000 2000 (by decide) (by decide) (by decide)
    (by decide)

/-- C3 (divergence witness): with a model store holding only key "a"
and a loaded store holding only key "b", the reconciliation loop logs
the "key not in model" warning, deletes "b" from the loaded dict, and
then raises `RuntimeError` (dict changed size during iteration) instead
of completing the merge, so no merged store is installed. -/
theorem reconcile_unknown_key_raises :
    reconcile [("a", tensorA)] [("b", tensorA)] =
      .error ([Warning.keyNotInModel "b"], PyError.dictMutation) := by
  rfl

/-- C4: for every key present in both the model store and the loaded
store with mismatched tensor shapes, the reconciled store's value for
that key equals the model store's original value (never the loaded
one), and a warning naming both shapes is recorded. -/
theorem shape_mismatch_keeps_model_value (msd sd : Store) (k : String)
    (mv lv : Tensor) (merged : Store) (ws : List Warning)
    (hnd : (keys sd).Nodup)
    (hm : lookup msd k = some mv) (hl : lookup sd k = some lv)
    (hsh : mv.shape ≠ lv.shape)
    (hok : reconcile msd sd = .ok (merged, ws)) :
    lookup merged k = some mv ∧
      Warning.sizeMismatch k mv.shape lv.shape ∈ ws := by
  rw [reconcile] at hok
  cases hloop : reconcileLoop msd (keys sd) sd [] with
  | error e =>
    rw [hloop] at hok
    simp at hok
  | ok p =>
    obtain ⟨sd2, ws0⟩ := p
    rw [hloop] at hok
    simp only [Except.ok.injEq, Prod.mk.injEq] at hok
    obtain ⟨hmerged, hws⟩ := hok
    have hmm := reconcileLoop_mismatch hnd (mem_keys_of_lookup hl) hm hl
      hsh hloop
    refine ⟨?_, ?_⟩
    · rw [← hmerged]
      refine dictUpdate_lookup _ ?_ hmm.1
      rw [reconcileLoop_keys hloop]
      exact hnd
    · rw [← hws]
      simp [hmm.2]

/-- Witness for C4: model store has "a" with shape `[2]`, loaded store
has "a" with shape `[3]`; the merged store keeps the model's "a". -/
theorem shape_mismatch_keeps_model_value_witness :
    lookup [("a", tensorA), ("c", tensorB)] "a" = some tensorA ∧
      Warning.sizeMismatch "a" [2] [3] ∈
        [Warning.sizeMismatch "a" [2] [3], Warning.missingKeys []] :=
  shape_mismatch_keeps_model_value
    [("a", tensorA), ("c", tensorB)] [("a", tensorB), ("c", tensorB)]
    "a" tensorA tensorB [("a", tensorA), ("c", tensorB)]
    [Warning.sizeMismatch "a" [2] [3], Warning.missingKeys []]
    (by decide) (by decide) (by decide) (by decide) rfl

/-- C9: checkpoint reconciliation is idempotent — reconciling a store
(in particular, any already-merged store: merged stores have unique
keys) against itself returns it unchanged: no key is dropped, no value
is replaced, and only the (empty) missing-keys warning is logged. -/
theorem reconcile_idempotent (S : Store) (hnd : (keys S).Nodup) :
    reconcile S S = .ok (S, [Warning.missingKeys []]) := by
  have hloop : reconcileLoop S (keys S) S [] = .ok (S, []) :=
    reconcileLoop_id (fun k h => h)
  have hmiss : (keys S).filter (fun k => !(contains S k)) = [] := by
    apply List.filter_eq_nil_iff.mpr
    intro k hk
    obtain ⟨v, hv⟩ := lookup_isSome_of_mem_keys hk
    simp [contains, hv]
  have hupd : dictUpdate S S = S :=
    dictUpdate_self_of_sub (fun kv hkv => lookup_self_of_nodup hnd hkv)
  simp [reconcile, hloop, hmiss, hupd]

/-- C2: for every configuration that passes the initial validation,
whose inference mode is not "HMC", whose initialization / checkpoint
phase succeeds, and whose schedule violates divisibility
(`(requested_samples * skip) % cycles != 0`), the run fails with the
schedule ConfigurationError (the failed `assert` on line 192) and
performs no further work: no runner is constructed and sampling never
starts. -/
theorem divisibility_violation_aborts (cfg : Config) (d : DataInfo)
    (msd : Store) (rb : RunnerBehavior) (iev : List Event) (st : Store)
    (hv : validateConfig cfg = true) (hH : cfg.inference ≠ "HMC")
    (hi : initModel cfg msd = (iev, Except.ok st))
    (hdiv : (cfg.n_samples * cfg.skip).fmod cfg.cycles ≠ 0) :
    (mainRun cfg d msd rb).2 = Except.error PyError.configAssert ∧
      (∀ e ∈ (mainRun cfg d msd rb).1, isRunner e = false) ∧
      Event.runStarted ∉ (mainRun cfg d msd rb).1 := by
  have hb := samplingBody_div_fail cfg d rb hH hdiv
  rw [mainRun_body_error hv hi hb]
  refine ⟨rfl, ?_, ?_⟩
  · intro e he
    rcases List.mem_cons.mp he with rfl | he
    · rfl
    rcases List.mem_append.mp he with he | he
    · rcases List.mem_append.mp he with he | he
      · rcases List.mem_append.mp he with he | he
        · exact (initModel_events_class cfg msd e
            (by rw [hi]; exact he)).2.2.2.1
        · exact (sinkOpens_class cfg e he).2.2.2.1
      · simp at he
    · exact (sinkCloses_class cfg e he).2.2.1
  · intro he
    rcases List.mem_cons.mp he with he | he
    · simp at he
    rcases List.mem_append.mp he with he | he
    · rcases List.mem_append.mp he with he | he
      · rcases List.mem_append.mp he with he | he
        · exact (initModel_events_class cfg msd _
            (by rw [hi]; exact he)).2.2.2.2.2.1 rfl
        · exact (sinkOpens_class cfg _ he).2.2.2.2.1 rfl
      · simp at he
    · exact (sinkCloses_class cfg _ he).2.2.2.1 rfl

/-- Witness for C2: the base SGLD configuration with 3 cycles
(20 sample-epochs are not divisible by 3). -/
theorem divisibility_violation_aborts_witness :
    (mainRun cfgDivBad dataSmall [] runnerOk).2 =
        Except.error PyError.configAssert ∧
      Event.runStarted ∉ (mainRun cfgDivBad dataSmall [] runnerOk).1 :=
  ⟨(divisibility_violation_aborts cfgDivBad dataSmall [] runnerOk
      [Event.initApplied "he"] [] (by decide) (by decide) rfl
      (by decide)).1,
   (divisibility_violation_aborts cfgDivBad dataSmall [] runnerOk
      [Event.initApplied "he"] [] (by decide) (by decide) rfl
      (by decide)).2.2⟩

/-- C5: once the sampling block is entered (validation passed and the
initialization / checkpoint phase succeeded), the metrics sink is
closed exactly once, the sample sink is closed exactly once when
sample-saving is enabled and never otherwise, on every exit path from
the block — normal completion, the schedule assert, the evaluation
TypeError, or an exception raised by the runner's `run()` — and no
record write ever occurs after a sink close. -/
theorem sinks_closed_exactly_once (cfg : Config) (d : DataInfo)
    (msd : Store) (rb : RunnerBehavior) (iev : List Event) (st : Store)
    (hv : validateConfig cfg = true)
    (hi : initModel cfg msd = (iev, Except.ok st)) :
    ((mainRun cfg d msd rb).1.count (Event.sinkClosed Sink.metrics)
        = 1) ∧
      ((mainRun cfg d msd rb).1.count (Event.sinkClosed Sink.samples) =
        if cfg.save_samples then 1 else 0) ∧
      writeAfterClose (mainRun cfg d msd rb).1 = false := by
  have hievcl : ∀ e ∈ iev, isClose e = false ∧ isWrite e = false := by
    intro e he
    have h2 := initModel_events_class cfg msd e (by rw [hi]; exact he)
    exact ⟨h2.1, h2.2.1⟩
  have hopcl := sinkOpens_class cfg
  have hclcl := sinkCloses_class cfg
  have civ1 : iev.count (Event.sinkClosed Sink.metrics) = 0 :=
    count_eq_zero_of_class (fun e he => (hievcl e he).1) rfl
  have civ2 : iev.count (Event.sinkClosed Sink.samples) = 0 :=
    count_eq_zero_of_class (fun e he => (hievcl e he).1) rfl
  have cop1 : (sinkOpens cfg).count (Event.sinkClosed Sink.metrics) = 0 :=
    count_eq_zero_of_class (fun e he => (hopcl e he).1) rfl
  have cop2 : (sinkOpens cfg).count (Event.sinkClosed Sink.samples) = 0 :=
    count_eq_zero_of_class (fun e he => (hopcl e he).1) rfl
  have ccl1 : (sinkCloses cfg).count (Event.sinkClosed Sink.metrics)
      = 1 := by
    unfold sinkCloses
    cases hsv : cfg.save_samples <;> simp
  have ccl2 : (sinkCloses cfg).count (Event.sinkClosed Sink.samples) =
      if cfg.save_samples then 1 else 0 := by
    unfold sinkCloses
    cases hsv : cfg.save_samples <;> simp [hsv]
  have hnw2 : writeAfterClose (sinkCloses cfg) = false :=
    writeAfterClose_of_no_writes (fun e he => (hclcl e he).1)
  rcases hbv : samplingBody cfg d rb with ⟨bev, bres⟩
  have hbevcl : ∀ e ∈ bev, isClose e = false := by
    intro e he
    exact (samplingBody_class cfg d rb e (by rw [hbv]; exact he)).1
  have cb1 : bev.count (Event.sinkClosed Sink.metrics) = 0 :=
    count_eq_zero_of_class hbevcl rfl
  have cb2 : bev.count (Event.sinkClosed Sink.samples) = 0 :=
    count_eq_zero_of_class hbevcl rfl
  have hl1 : ∀ e ∈ Event.dataLoaded :: (iev ++ sinkOpens cfg ++ bev),
      isClose e = false := by
    intro e he
    rcases List.mem_cons.mp he with rfl | he
    · rfl
    rcases List.mem_append.mp he with he | he
    · rcases List.mem_append.mp he with he | he
      · exact (hievcl e he).1
      · exact (hopcl e he).1
    · exact hbevcl e he
  cases bres with
  | error e0 =>
    rw [mainRun_body_error hv hi hbv]
    refine ⟨?_, ?_, ?_⟩
    · simp [List.count_cons, List.count_append, civ1, cop1, cb1, ccl1]
    · simp [List.count_cons, List.count_append, civ2, cop2, cb2, ccl2]
    · have heq :
          Event.dataLoaded :: iev ++ sinkOpens cfg ++ bev
              ++ sinkCloses cfg =
            (Event.dataLoaded :: (iev ++ sinkOpens cfg ++ bev))
              ++ sinkCloses cfg := by
        simp
      rw [heq]
      exact writeAfterClose_append_false hl1 hnw2
  | ok obs =>
    cases obs with
    | none =>
      rw [mainRun_body_none hv hi hbv]
      refine ⟨?_, ?_, ?_⟩
      · simp [List.count_cons, List.count_append, civ1, cop1, cb1, ccl1]
      · simp [List.count_cons, List.count_append, civ2, cop2, cb2, ccl2]
      · have heq :
            Event.dataLoaded :: iev ++ sinkOpens cfg ++ bev
                ++ sinkCloses cfg =
              (Event.dataLoaded :: (iev ++ sinkOpens cfg ++ bev))
                ++ sinkCloses cfg := by
          simp
        rw [heq]
        exact writeAfterClose_append_false hl1 hnw2
    | some bs =>
      rw [mainRun_body_some hv hi hbv]
      have hnw3 : writeAfterClose (sinkCloses cfg ++
          [Event.evalLoaderCreated (min bs d.testSize),
            Event.evaluated]) = false := by
        apply writeAfterClose_of_no_writes
        intro e he
        rcases List.mem_append.mp he with he | he
        · exact (hclcl e he).1
        · rcases List.mem_cons.mp he with rfl | he
          · rfl
          · simp at he
            subst he
            rfl
      refine ⟨?_, ?_, ?_⟩
      · simp [List.count_cons, List.count_append, civ1, cop1, cb1, ccl1]
      · simp [List.count_cons, List.count_append, civ2, cop2, cb2, ccl2]
      · have heq :
            Event.dataLoaded :: iev ++ sinkOpens cfg ++ bev
                ++ sinkCloses cfg
                ++ [Event.evalLoaderCreated (min bs d.testSize),
                  Event.evaluated] =
              (Event.dataLoaded :: (iev ++ sinkOpens cfg ++ bev))
                ++ (sinkCloses cfg
                  ++ [Event.evalLoaderCreated (min bs d.testSize),
                    Event.evaluated]) := by
          simp
        rw [heq]
        exact writeAfterClose_append_false hl1 hnw3

/-- Witness for C5: the base configuration with a runner that writes
one record and then raises; both sinks are still closed exactly once
and no write follows a close. -/
theorem sinks_closed_exactly_once_witness :
    ((mainRun baseConfig dataSmall [] runnerRaises).1.count
        (Event.sinkClosed Sink.metrics) = 1) ∧
      ((mainRun baseConfig dataSmall [] runnerRaises).1.count
        (Event.sinkClosed Sink.samples) =
          if baseConfig.save_samples then 1 else 0) ∧
      writeAfterClose (mainRun baseConfig dataSmall [] runnerRaises).1
        = false :=
  sinks_closed_exactly_once baseConfig dataSmall [] runnerRaises
    [Event.initApplied "he"] [] (by decide) rfl

theorem samplingBody_error_kind {cfg : Config} {d : DataInfo}
    {rb : RunnerBehavior} {bev : List Event} {e : PyError}
    (h : samplingBody cfg d rb = (bev, Except.error e)) :
    e = PyError.configAssert ∨ e = PyError.runnerFailure := by
  have h2 := congrArg Prod.snd h
  simp only at h2
  unfold samplingBody at h2
  split at h2
  · cases hr : rb.raises <;> simp [hr] at h2
    exact Or.inr h2.symm
  · split at h2
    · cases hr : rb.raises <;> simp [hr] at h2
      exact Or.inr h2.symm
    · simp at h2
      exact Or.inl h2.symm

/-- C6 counterexample: with a valid SGLD configuration whose schedule
violates divisibility, the run ends with the schedule
ConfigurationError, but the metrics sink has already been opened — so
not every ConfigurationError is raised before a sink is opened. -/
theorem divisibility_error_after_sink_open :
    (mainRun cfgDivBad dataSmall [] runnerOk).2 =
        Except.error PyError.configAssert ∧
      Event.sinkOpened Sink.metrics ∈
        (mainRun cfgDivBad dataSmall [] runnerOk).1 := by
  exact ⟨rfl, by decide⟩

/-- C6 (amended): the ConfigurationErrors of the validation asserts
(invalid inference mode, non-positive width / sample count / cycle
count, negative temperature) and the unknown-initialization-scheme
error are raised before any sink is opened; the schedule-divisibility
ConfigurationError is raised only after the sinks are opened, though
still before any runner is constructed and before sampling starts. -/
theorem config_errors_timing (cfg : Config) (d : DataInfo) (msd : Store)
    (rb : RunnerBehavior) :
    (validateConfig cfg = false →
      (mainRun cfg d msd rb).2 = Except.error PyError.configAssert ∧
        ∀ e ∈ (mainRun cfg d msd rb).1, isSinkOpen e = false) ∧
      (validateConfig cfg = true → cfg.load_samples = none →
        cfg.init_method ∉ knownInits →
        (mainRun cfg d msd rb).2 = Except.error PyError.unknownInit ∧
          ∀ e ∈ (mainRun cfg d msd rb).1, isSinkOpen e = false) ∧
      (∀ iev st, validateConfig cfg = true → cfg.inference ≠ "HMC" →
        initModel cfg msd = (iev, Except.ok st) →
        (cfg.n_samples * cfg.skip).fmod cfg.cycles ≠ 0 →
        (mainRun cfg d msd rb).2 = Except.error PyError.configAssert ∧
          Event.sinkOpened Sink.metrics ∈ (mainRun cfg d msd rb).1 ∧
          (∀ e ∈ (mainRun cfg d msd rb).1, isRunner e = false) ∧
          Event.runStarted ∉ (mainRun cfg d msd rb).1) := by
  refine ⟨?_, ?_, ?_⟩
  · intro hv
    rw [mainRun_invalid cfg d msd rb hv]
    exact ⟨rfl, by simp⟩
  · intro hv hls hmem
    rw [mainRun_init_error d rb hv (initModel_unknown msd hls hmem)]
    refine ⟨rfl, ?_⟩
    intro e he
    simp at he
    subst he
    rfl
  · intro iev st hv hH hi hdiv
    have hb := samplingBody_div_fail cfg d rb hH hdiv
    rw [mainRun_body_error hv hi hb]
    refine ⟨rfl, ?_, ?_, ?_⟩
    · simp [sinkOpens]
    · intro e he
      rcases List.mem_cons.mp he with rfl | he
      · rfl
      rcases List.mem_append.mp he with he | he
      · rcases List.mem_append.mp he with he | he
        · rcases List.mem_append.mp he with he | he
          · exact (initModel_events_class cfg msd e
              (by rw [hi]; exact he)).2.2.2.1
          · exact (sinkOpens_class cfg e he).2.2.2.1
        · simp at he
      · exact (sinkCloses_class cfg e he).2.2.1
    · intro he
      rcases List.mem_cons.mp he with he | he
      · simp at he
      rcases List.mem_append.mp he with he | he
      · rcases List.mem_append.mp he with he | he
        · rcases List.mem_append.mp he with he | he
          · exact (initModel_events_class cfg msd _
              (by rw [hi]; exact he)).2.2.2.2.2.1 rfl
          · exact (sinkOpens_class cfg _ he).2.2.2.2.1 rfl
        · simp at he
      · exact (sinkCloses_class cfg _ he).2.2.2.1 rfl

/-- Witness for C6 (amended): an invalid configuration (width 0)
aborts with the ConfigurationError before any sink is opened. -/
theorem config_errors_timing_witness :
    (mainRun cfgInvalid dataSmall [] runnerOk).2 =
      Except.error PyError.configAssert :=
  ((config_errors_timing cfgInvalid dataSmall [] runnerOk).1
    (by decide)).1

/-- C7: for every valid configuration in "HMC" mode whose
initialization / checkpoint phase succeeds, schedule computation is
bypassed — the divisibility ConfigurationError cannot occur, whatever
`skip` and `cycles` hold — and exactly one library HMC kernel is
constructed, with `step_size = 1e-3` and `num_steps = 32`. -/
theorem hmc_fixed_kernel (cfg : Config) (d : DataInfo) (msd : Store)
    (rb : RunnerBehavior) (iev : List Event) (st : Store)
    (hv : validateConfig cfg = true) (hH : cfg.inference = "HMC")
    (hi : initModel cfg msd = (iev, Except.ok st)) :
    ((mainRun cfg d msd rb).1.countP isKernel = 1) ∧
      Event.kernelConstructed (1/1000) 32 ∈ (mainRun cfg d msd rb).1 ∧
      (mainRun cfg d msd rb).2 ≠ Except.error PyError.configAssert := by
  have hb := samplingBody_hmc cfg d rb hH
  have hivk : iev.countP isKernel = 0 :=
    countP_eq_zero_of_class (fun e he =>
      (initModel_events_class cfg msd e (by rw [hi]; exact he)).2.2.1)
  have hopk : (sinkOpens cfg).countP isKernel = 0 :=
    countP_eq_zero_of_class (fun e he => (sinkOpens_class cfg e he).2.2.1)
  have hclk : (sinkCloses cfg).countP isKernel = 0 :=
    countP_eq_zero_of_class (fun e he => (sinkCloses_class cfg e he).2.1)
  have hwk : (writeEvents rb).countP isKernel = 0 :=
    countP_eq_zero_of_class (fun e he => (writeEvents_class rb e he).2.1)
  cases hr : rb.raises with
  | true =>
    simp only [hr, if_true] at hb
    rw [mainRun_body_error hv hi hb]
    refine ⟨?_, ?_, ?_⟩
    · simp [List.countP_cons, List.countP_append, hivk, hopk, hclk, hwk,
        isKernel]
    · simp
    · simp
  | false =>
    simp only [hr, if_false] at hb
    cases hbs : cfg.batch_size with
    | none =>
      rw [hbs] at hb
      rw [mainRun_body_none hv hi hb]
      refine ⟨?_, ?_, ?_⟩
      · simp [List.countP_cons, List.countP_append, hivk, hopk, hclk,
          hwk, isKernel]
      · simp
      · simp
    | some bs =>
      rw [hbs] at hb
      rw [mainRun_body_some hv hi hb]
      refine ⟨?_, ?_, ?_⟩
      · simp [List.countP_cons, List.countP_append, hivk, hopk, hclk,
          hwk, isKernel]
      · simp
      · simp

/-- Witness for C7: HMC mode with skip 5 and cycles 2 (whose product
with the sample count is irrelevant); exactly one kernel with the
fixed parameters. -/
theorem hmc_fixed_kernel_witness :
    ((mainRun cfgHmc dataSmall [] runnerOk).1.countP isKernel = 1) ∧
      Event.kernelConstructed (1/1000) 32 ∈
        (mainRun cfgHmc dataSmall [] runnerOk).1 ∧
      (mainRun cfgHmc dataSmall [] runnerOk).2 ≠
        Except.error PyError.configAssert :=
  hmc_fixed_kernel cfgHmc dataSmall [] runnerOk
    [Event.initApplied "he"] [] (by decide) rfl rfl

/-- C8 counterexample: in HMC mode with `batch_size` unset (both are
reachable defaults), the run completes sampling and then fails with a
TypeError at `min(batch_size, len(test))`; no training loader and no
evaluation loader is ever created, so no loader's batch size resolves
as the claim requires. -/
theorem hmc_unset_batch_fails_evaluation :
    (mainRun cfgHmcNoBatch dataSmall [] runnerOk).2 =
        Except.error PyError.noneCompare ∧
      (mainRun cfgHmcNoBatch dataSmall [] runnerOk).1.countP
          isEvalLoader = 0 ∧
      (mainRun cfgHmcNoBatch dataSmall [] runnerOk).1.countP
          isTrainLoader = 0 := by
  exact ⟨rfl, by decide, by decide⟩

/-- C8 (amended): for every run in a non-HMC inference mode (the modes
that construct data loaders), the training loader's batch size
resolves to the configured batch size or, when unset, the full
training-set size, and when the run reaches evaluation the evaluation
loader's batch size is `min(resolved batch size, test-set size)`; in
HMC mode with `batch_size` unset the run instead fails at evaluation
with a TypeError. -/
theorem batch_size_resolution (cfg : Config) (d : DataInfo)
    (msd : Store) (rb : RunnerBehavior) (iev : List Event) (st : Store)
    (hv : validateConfig cfg = true)
    (hi : initModel cfg msd = (iev, Except.ok st)) :
    (cfg.inference ≠ "HMC" →
      (cfg.n_samples * cfg.skip).fmod cfg.cycles = 0 →
      (Event.dataloaderCreated true (cfg.batch_size.getD d.trainSize) ∈
          (mainRun cfg d msd rb).1) ∧
        (∀ b, Event.dataloaderCreated true b ∈ (mainRun cfg d msd rb).1 →
          b = cfg.batch_size.getD d.trainSize) ∧
        (rb.raises = false →
          Event.evalLoaderCreated
              (min (cfg.batch_size.getD d.trainSize) d.testSize) ∈
            (mainRun cfg d msd rb).1)) ∧
      (cfg.inference = "HMC" → cfg.batch_size = none →
        rb.raises = false →
        (mainRun cfg d msd rb).2 = Except.error PyError.noneCompare) := by
  constructor
  · intro hH hdiv
    have hb := samplingBody_sched cfg d rb hH hdiv
    cases hr : rb.raises with
    | true =>
      simp only [hr, if_true] at hb
      rw [mainRun_body_error hv hi hb]
      refine ⟨by simp, ?_, ?_⟩
      · intro b hbm
        rcases List.mem_cons.mp hbm with h0 | hbm
        · simp at h0
        rcases List.mem_append.mp hbm with hbm | hbm
        · rcases List.mem_append.mp hbm with hbm | hbm
          · rcases List.mem_append.mp hbm with hbm | hbm
            · have ht := (initModel_events_class cfg msd _
                (by rw [hi]; exact hbm)).2.2.2.2.2.2.2
              simp [isTrainLoader] at ht
            · have ht := (sinkOpens_class cfg _ hbm).2.2.2.2.2.2.2
              simp [isTrainLoader] at ht
          · simp at hbm
            rcases hbm with rfl | hbm
            · rfl
            · have ht := (writeEvents_class rb _ hbm).2.2.2.2.2.2.2
              simp [isTrainLoader] at ht
        · have ht := (sinkCloses_class cfg _ hbm).2.2.2.2.2.2.2
          simp [isTrainLoader] at ht
      · intro hr2
        simp [hr] at hr2
    | false =>
      simp only [hr, if_false] at hb
      rw [mainRun_body_some hv hi hb]
      refine ⟨by simp, ?_, ?_⟩
      · intro b hbm
        rcases List.mem_cons.mp hbm with h0 | hbm
        · simp at h0
        rcases List.mem_append.mp hbm with hbm | hbm
        · rcases List.mem_append.mp hbm with hbm | hbm
          · rcases List.mem_append.mp hbm with hbm | hbm
            · rcases List.mem_append.mp hbm with hbm | hbm
              · have ht := (initModel_events_class cfg msd _
                  (by rw [hi]; exact hbm)).2.2.2.2.2.2.2
                simp [isTrainLoader] at ht
              · have ht := (sinkOpens_class cfg _ hbm).2.2.2.2.2.2.2
                simp [isTrainLoader] at ht
            · simp at hbm
              rcases hbm with rfl | hbm
              · rfl
              · have ht := (writeEvents_class rb _ hbm).2.2.2.2.2.2.2
                simp [isTrainLoader] at ht
          · have ht := (sinkCloses_class cfg _ hbm).2.2.2.2.2.2.2
            simp [isTrainLoader] at ht
        · simp at hbm
      · intro _
        simp
  · intro hH hbs hr
    have hb := samplingBody_hmc cfg d rb hH
    simp only [hr, if_false, hbs] at hb
    rw [mainRun_body_none hv hi hb]

/-- Witness for C8 (amended): SGLD with `batch_size` unset and 10
training / 4 test points — the training loader resolves to batch 10,
the evaluation loader to `min 10 4 = 4`. -/
theorem batch_size_resolution_witness :
    (Event.dataloaderCreated true 10 ∈
        (mainRun baseConfig dataSmall [] runnerOk).1) ∧
      Event.evalLoaderCreated 4 ∈
        (mainRun baseConfig dataSmall [] runnerOk).1 :=
  ⟨((batch_size_resolution baseConfig dataSmall [] runnerOk
      [Event.initApplied "he"] [] (by decide) rfl).1 (by decide)
      (by decide)).1,
   ((batch_size_resolution baseConfig dataSmall [] runnerOk
      [Event.initApplied "he"] [] (by decide) rfl).1 (by decide)
      (by decide)).2.2 rfl⟩

/-- C10: whenever a checkpoint path (`load_samples`) is provided, the
initialization-scheme branch is never consulted: no initialization
scheme is applied and the unknown-init-method ValueError is never
raised, whatever `init_method` holds (so that failure can only occur
when no checkpoint path is given). -/
theorem checkpoint_bypasses_init (cfg : Config) (d : DataInfo)
    (msd : Store) (rb : RunnerBehavior) (sd : Store)
    (hls : cfg.load_samples = some sd) :
    ((mainRun cfg d msd rb).1.countP isInit = 0) ∧
      (mainRun cfg d msd rb).2 ≠ Except.error PyError.unknownInit := by
  cases hv : validateConfig cfg with
  | false =>
    rw [mainRun_invalid cfg d msd rb hv]
    exact ⟨rfl, by simp⟩
  | true =>
    rcases initModel_some_cases cfg msd sd hls with hio | ⟨merged, hio⟩
    · rw [mainRun_init_error d rb hv hio]
      exact ⟨rfl, by simp⟩
    · have hopi : (sinkOpens cfg).countP isInit = 0 :=
        countP_eq_zero_of_class (fun e he =>
          (sinkOpens_class cfg e he).2.2.2.2.2.1)
      have hcli : (sinkCloses cfg).countP isInit = 0 :=
        countP_eq_zero_of_class (fun e he =>
          (sinkCloses_class cfg e he).2.2.2.2.1)
      rcases hbv : samplingBody cfg d rb with ⟨bev, bres⟩
      have hbi : bev.countP isInit = 0 :=
        countP_eq_zero_of_class (fun e he =>
          (samplingBody_class cfg d rb e (by rw [hbv]; exact he)).2.2.1)
      cases bres with
      | error e0 =>
        rw [mainRun_body_error hv hio hbv]
        refine ⟨?_, ?_⟩
        · simp [List.countP_cons, List.countP_append, hopi, hcli, hbi,
            isInit]
        · rcases samplingBody_error_kind hbv with rfl | rfl <;> simp
      | ok obs =>
        cases obs with
        | none =>
          rw [mainRun_body_none hv hio hbv]
          refine ⟨?_, ?_⟩
          · simp [List.countP_cons, List.countP_append, hopi, hcli, hbi,
              isInit]
          · simp
        | some bs =>
          rw [mainRun_body_some hv hio hbv]
          refine ⟨?_, ?_⟩
          · simp [List.countP_cons, List.countP_append, hopi, hcli, hbi,
              isInit]
          · simp

/-- Witness for C10: a checkpoint is given together with a nonsense
`init_method`; no initialization happens and no unknown-init error is
raised. -/
theorem checkpoint_bypasses_init_witness :
    ((mainRun cfgLoad dataSmall [("a", tensorA)] runnerOk).1.countP
        isInit = 0) ∧
      (mainRun cfgLoad dataSmall [("a", tensorA)] runnerOk).2 ≠
        Except.error PyError.unknownInit :=
  checkpoint_bypasses_init cfgLoad dataSmall [("a", tensorA)] runnerOk
    [("a", tensorA)] rfl

/-- Witness for C9, on a concrete two-key store. -/
theorem reconcile_idempotent_witness :
    reconcile [("a", tensorA), ("c", tensorB)]
        [("a", tensorA), ("c", tensorB)] =
      .ok ([("a", tensorA), ("c", tensorB)], [Warning.missingKeys []]) :=
  reconcile_idempotent [("a", tensorA), ("c", tensorB)] (by decide)

end TrainBnn
